import Mathlib

/-!
Verification of the Daloy adaptive traffic-signal controller.

The definitions below are a shallow embedding of the decision core found in
optimized_traffic_controller.py (class OptimizedTrafficController) and of the
camera-focus helper duplicated in rotating_camera_example.py.  Machine reals
are modelled as rationals, detector counts as integers, the per-tick phase
decision as an explicit state-machine step, and the fallible sensor boundary
as an Option-valued reading per direction.
-/

namespace Daloy

/-- The four compass directions used by the detector layout. -/
inductive Direction
  | E
  | W
  | N
  | S
deriving DecidableEq, Repr, Fintype

/-- The two green phases a decision can target.  SUMO phase index 0 is
east-west green and phase index 2 is north-south green in the source. -/
inductive Phase
  | EWGreen
  | NSGreen
deriving DecidableEq, Repr

/-- The opposite green phase. -/
def Phase.opposite : Phase → Phase
  | .EWGreen => .NSGreen
  | .NSGreen => .EWGreen

/-- A direction pair (axis), the argument direction_pair of
calculate_urgency_score in the source. -/
inductive AxisP
  | EW
  | NS
deriving DecidableEq, Repr

/-- camera_rotation_speed = 10 degrees per step (controller constructor). -/
def camera_rotation_speed : ℚ := 10

/-- min_green_time = 20 (controller constructor). -/
def min_green_time : ℕ := 20

/-- max_green_time = 90 (controller constructor). -/
def max_green_time : ℕ := 90

/-- congestion_threshold = 18 (controller constructor). -/
def congestion_threshold : ℤ := 18

/-- emergency_threshold = 25 (controller constructor). -/
def emergency_threshold : ℤ := 25

/-- coordination_weight = 2.5 (controller constructor). -/
def coordination_weight : ℚ := 5/2

/-- queue_clearing_bonus = 3.0 (controller constructor). -/
def queue_clearing_bonus : ℚ := 3

/-- Python modulo with modulus 360 on exact reals: the representative of the
argument modulo 360 lying in the interval from 0 inclusive to 360 exclusive. -/
def qmod360 (a : ℚ) : ℚ := a - 360 * (⌊a / 360⌋ : ℚ)

/-- Camera focus mapping, get_camera_focus in the source: primary and
secondary focus direction for a camera angle in degrees.  The angle is first
reduced modulo 360 exactly as the source does. -/
def get_camera_focus (angle0 : ℚ) : Direction × Direction :=
  let angle := qmod360 angle0
  if 315 ≤ angle ∨ angle < 45 then
    (Direction.E, if angle < 22.5 ∨ 337.5 < angle then Direction.N else Direction.S)
  else if 45 ≤ angle ∧ angle < 135 then
    (Direction.N, if angle < 90 then Direction.E else Direction.W)
  else if 135 ≤ angle ∧ angle < 225 then
    (Direction.W, if angle < 180 then Direction.N else Direction.S)
  else if 225 ≤ angle ∧ angle < 315 then
    (Direction.S, if angle < 270 then Direction.W else Direction.E)
  else
    (Direction.E, Direction.N)

/-- The amended focus table: what get_camera_focus actually computes on the
reduced range, written as a flat partition.  The North, West and South
sectors are split at their midpoints 90, 180 and 270; the East sector is
split at 22.5 and 337.5, giving North on the central 45-degree band around 0
and South on the two outer sub-bands. -/
def spec_focus_amended (angle : ℚ) : Direction × Direction :=
  if angle < 22.5 then (Direction.E, Direction.N)
  else if angle < 45 then (Direction.E, Direction.S)
  else if angle < 90 then (Direction.N, Direction.E)
  else if angle < 135 then (Direction.N, Direction.W)
  else if angle < 180 then (Direction.W, Direction.N)
  else if angle < 225 then (Direction.W, Direction.S)
  else if angle < 270 then (Direction.S, Direction.W)
  else if angle < 315 then (Direction.S, Direction.E)
  else if angle ≤ 337.5 then (Direction.E, Direction.S)
  else (Direction.E, Direction.N)

/-- Visibility factor, calculate_camera_visibility in the source:
1.0 for the primary focus direction, 0.75 for the secondary one and
0.25 for the two peripheral directions. -/
def calculate_camera_visibility (direction primary secondary : Direction) : ℚ :=
  if direction = primary then 1
  else if direction = secondary then 3/4
  else 1/4

/-- Python int() conversion applied to an exact real: truncation toward
zero. -/
def intTrunc (q : ℚ) : ℤ := if 0 ≤ q then ⌊q⌋ else -⌊-q⌋

/-- Camera weighting of a raw detector count, the expression
int(raw * visibility_factor) in get_360_camera_data. -/
def weight_count (raw : ℕ) (vis : ℚ) : ℤ := intTrunc ((raw : ℚ) * vis)

/-- One raw per-direction sensor reading: the summed halting count, summed
total count and average waiting time over the detectors of that direction. -/
structure RawReading where
  halting : ℕ
  total : ℕ
  waiting : ℚ
deriving DecidableEq, Repr

/-- The traffic_data dictionary built by get_360_camera_data: one weighted
halting count, total count and waiting time per direction. -/
structure TrafficData where
  halting : Direction → ℤ
  total : Direction → ℤ
  waiting : Direction → ℚ

/-- Camera angle advance, the first statement of get_360_camera_data:
the angle grows by camera_rotation_speed and wraps modulo 360. -/
def advance_angle (a : ℚ) : ℚ := qmod360 (a + camera_rotation_speed)

/-- Data-collection portion of get_360_camera_data: for every direction the
raw reading, when available, is scaled by the visibility factor of the
current focus; an unavailable reading (the per-direction except branch of
the source) is replaced by an all-zero row and never surfaces as an error. -/
def get_360_camera_data (angle : ℚ) (readings : Direction → Option RawReading) :
    TrafficData :=
  let pr := get_camera_focus angle
  { halting := fun d =>
      match readings d with
      | none => 0
      | some r => weight_count r.halting (calculate_camera_visibility d pr.1 pr.2)
    total := fun d =>
      match readings d with
      | none => 0
      | some r => weight_count r.total (calculate_camera_visibility d pr.1 pr.2)
    waiting := fun d =>
      match readings d with
      | none => 0
      | some r => r.waiting * calculate_camera_visibility d pr.1 pr.2 }

/-- History update of get_360_camera_data: the weighted halting count of the
primary focus direction is appended to that directions buffer, then every
buffer longer than 10 entries drops its oldest entry. -/
def updateHistory (hist : Direction → List ℤ) (primary : Direction) (value : ℤ) :
    Direction → List ℤ :=
  fun d =>
    let h := if d = primary then hist d ++ [value] else hist d
    if 10 < h.length then h.tail else h

/-- Trend estimate, predict_traffic_trend in the source, over the history
buffer of one direction. -/
def predict_traffic_trend (history : List ℤ) : ℚ :=
  if history.length < 5 then 0
  else
    let recent := history.drop (history.length - 5)
    if 3 ≤ recent.length then
      (((recent.getLast?.getD 0 : ℤ) : ℚ) - ((recent.head?.getD 0 : ℤ) : ℚ)) /
        (recent.length : ℚ)
    else 0

/-- The two directions composing an axis. -/
def axis_dirs : AxisP → Direction × Direction
  | .EW => (Direction.E, Direction.W)
  | .NS => (Direction.N, Direction.S)

/-- Urgency score, calculate_urgency_score in the source. -/
def calculate_urgency_score (td : TrafficData) (hist : Direction → List ℤ)
    (pair : AxisP) : ℚ :=
  let d1 := (axis_dirs pair).1
  let d2 := (axis_dirs pair).2
  let halting : ℤ := td.halting d1 + td.halting d2
  let total : ℤ := td.total d1 + td.total d2
  let waiting : ℚ := (td.waiting d1 + td.waiting d2) / 2
  let trend : ℚ := max (predict_traffic_trend (hist d1)) (predict_traffic_trend (hist d2))
  let urgency : ℚ :=
    (halting : ℚ) * 4 + (total : ℚ) * (3/2) + waiting * (4/5) + max 0 trend * (5/2)
  let urgency2 : ℚ :=
    if emergency_threshold ≤ halting then urgency * 2
    else if congestion_threshold ≤ halting then urgency * (3/2)
    else urgency
  if 0 < halting then urgency2 + queue_clearing_bonus * (halting : ℚ) else urgency2

/-- The urgency formula as the specification words it: identical weighted
sum and threshold multipliers, with the queue-clearing bonus added
unconditionally. -/
def urgency_spec_formula (td : TrafficData) (hist : Direction → List ℤ)
    (pair : AxisP) : ℚ :=
  let d1 := (axis_dirs pair).1
  let d2 := (axis_dirs pair).2
  let halting : ℤ := td.halting d1 + td.halting d2
  let total : ℤ := td.total d1 + td.total d2
  let waiting : ℚ := (td.waiting d1 + td.waiting d2) / 2
  let trend : ℚ := max (predict_traffic_trend (hist d1)) (predict_traffic_trend (hist d2))
  let urgency : ℚ :=
    (halting : ℚ) * 4 + (total : ℚ) * (3/2) + waiting * (4/5) + max 0 trend * (5/2)
  let urgency2 : ℚ :=
    if emergency_threshold ≤ halting then urgency * 2
    else if congestion_threshold ≤ halting then urgency * (3/2)
    else urgency
  urgency2 + 3 * (halting : ℚ)

/-- Per-tick phase decision of optimized_traffic_control for one
intersection: the urgency-ratio branch needs the minimum green time, the
forced branch fires at the maximum green time.  The switch multiplier r is
1.5 for J1 and 1.4 for J2 in the source. -/
def decideTransit (cur : Phase) (timer : ℕ) (ewU nsU : ℚ) (r : ℚ) : Option Phase :=
  match cur with
  | .EWGreen =>
    if nsU > ewU * r ∧ min_green_time ≤ timer then some .NSGreen
    else if max_green_time ≤ timer then some .NSGreen
    else none
  | .NSGreen =>
    if ewU > nsU * r ∧ min_green_time ≤ timer then some .EWGreen
    else if max_green_time ≤ timer then some .EWGreen
    else none

/-- Phase state of one intersection: the current green phase and the phase
timer counting ticks since the last change. -/
structure PhaseState where
  phase : Phase
  timer : ℕ
deriving DecidableEq, Repr

/-- One controller tick for one intersection: the timer is incremented
first (j1_phase_timer += 1 in the source), then the decision is evaluated;
a transition resets the timer to 0. -/
def stepPhase (r : ℚ) (s : PhaseState) (ewU nsU : ℚ) : PhaseState :=
  let t := s.timer + 1
  match decideTransit s.phase t ewU nsU r with
  | some p => ⟨p, 0⟩
  | none => ⟨s.phase, t⟩

/-- A whole run: one stepPhase per tick, fed the per-tick pair of east-west
and north-south urgency scores. -/
def runPhase (r : ℚ) (init : PhaseState) : List (ℚ × ℚ) → PhaseState
  | [] => init
  | uv :: rest => runPhase r (stepPhase r init uv.1 uv.2) rest

/-- Coordination adjustment applied to the J2 urgency scores, lines 300-307
of the source: when the decided J1 target phase is east-west green the J2
east-west urgency is scaled by coordination_weight, and scaled again by 1.3
when the last J1 change lies fewer than 40 steps in the past.  The J2
north-south urgency is returned untouched. -/
def coordAdjust (targetJ1 : Phase) (step lastChange : ℕ) (ewU nsU : ℚ) : ℚ × ℚ :=
  let u1 := if targetJ1 = Phase.EWGreen then ewU * coordination_weight else ewU
  let u2 :=
    if (step : ℤ) - (lastChange : ℤ) < 40 then
      (if targetJ1 = Phase.EWGreen then u1 * (13/10) else u1)
    else u1
  (u2, nsU)

/-! Helper lemmas about the angle arithmetic. -/

theorem qmod360_bounds (a : ℚ) : 0 ≤ qmod360 a ∧ qmod360 a < 360 := by
  unfold qmod360
  have h1 : ((⌊a / 360⌋ : ℚ)) ≤ a / 360 := Int.floor_le (a / 360)
  have h2 : a / 360 < (⌊a / 360⌋ : ℚ) + 1 := Int.lt_floor_add_one (a / 360)
  constructor <;> linarith

theorem qmod360_eq_self (a : ℚ) (h0 : 0 ≤ a) (h1 : a < 360) : qmod360 a = a := by
  unfold qmod360
  have hf : ⌊a / 360⌋ = 0 := by
    rw [Int.floor_eq_zero_iff]
    constructor
    · positivity
    · rw [div_lt_one (by norm_num : (0:ℚ) < 360)] at *
      · linarith
  rw [hf]
  push_cast
  ring

theorem qmod360_add_int (a : ℚ) (k : ℤ) : qmod360 (a + 360 * k) = qmod360 a := by
  unfold qmod360
  have hd : (a + 360 * k) / 360 = a / 360 + k := by
    field_simp
    ring
  rw [hd, Int.floor_add_int]
  push_cast
  ring

theorem advance_angle_qmod (a : ℚ) :
    advance_angle (qmod360 a) = qmod360 (a + camera_rotation_speed) := by
  unfold advance_angle
  have h : qmod360 a + camera_rotation_speed =
      (a + camera_rotation_speed) + 360 * (-⌊a / 360⌋ : ℤ) := by
    unfold qmod360
    push_cast
    ring
  rw [h, qmod360_add_int]

theorem advance_angle_iter (a : ℚ) (n : ℕ) :
    advance_angle^[n] (qmod360 a) = qmod360 (a + camera_rotation_speed * n) := by
  induction n generalizing a with
  | zero => simp
  | succ m ih =>
    rw [Function.iterate_succ_apply, advance_angle_qmod, ih]
    push_cast
    ring_nf

/-! Helper lemmas about the phase state machine. -/

theorem decideTransit_none_timer (cur : Phase) (timer : ℕ) (ewU nsU r : ℚ)
    (h : decideTransit cur timer ewU nsU r = none) : timer < max_green_time := by
  by_contra hc
  push_neg at hc
  cases cur with
  | EWGreen =>
    simp only [decideTransit] at h
    split_ifs at h
  | NSGreen =>
    simp only [decideTransit] at h
    split_ifs at h

theorem stepPhase_timer_le (r : ℚ) (s : PhaseState) (u v : ℚ) :
    (stepPhase r s u v).timer ≤ 89 := by
  cases hd : decideTransit s.phase (s.timer + 1) u v r with
  | some p => simp [stepPhase, hd]
  | none =>
    have := decideTransit_none_timer _ _ _ _ _ hd
    unfold max_green_time at this
    simp only [stepPhase, hd]
    omega

theorem stepPhase_forced (r : ℚ) (s : PhaseState) (u v : ℚ) (h : s.timer = 89) :
    stepPhase r s u v = ⟨s.phase.opposite, 0⟩ := by
  obtain ⟨ph, tm⟩ := s
  simp only at h
  subst h
  cases ph <;>
    · simp only [stepPhase, decideTransit, Phase.opposite]
      split_ifs with h1 h2 <;> first
        | rfl
        | (exfalso; exact h2 (by unfold max_green_time; omega))

theorem runPhase_timer_le (r : ℚ) (init : PhaseState) (inputs : List (ℚ × ℚ))
    (h : init.timer ≤ 89) : (runPhase r init inputs).timer ≤ 89 := by
  induction inputs generalizing init with
  | nil => simpa [runPhase] using h
  | cons x xs ih =>
    rw [runPhase]
    exact ih _ (stepPhase_timer_le r init x.1 x.2)

/-! Claim theorems. -/

/-- C1 (min-green floor): with a phase timer strictly below min_green_time
the per-tick decision makes no transition at all: in particular no
urgency-ratio-triggered transition occurs, and since max_green_time exceeds
min_green_time the forced branch cannot fire before the floor either. -/
theorem min_green_floor (cur : Phase) (timer : ℕ) (ewU nsU r : ℚ)
    (h : timer < min_green_time) :
    decideTransit cur timer ewU nsU r = none := by
  have h20 : ¬ min_green_time ≤ timer := by omega
  have h90 : ¬ max_green_time ≤ timer := by
    unfold min_green_time at h
    unfold max_green_time
    omega
  cases cur <;> simp [decideTransit, h20, h90]

/-- Witness for C1, scenario A of the specification: east-west green active,
timer 5, north-south urgency 100 against east-west urgency 1, switch
multiplier 1.5: the decision holds the phase. -/
theorem min_green_floor_witness :
    decideTransit Phase.EWGreen 5 1 100 (3/2) = none :=
  min_green_floor Phase.EWGreen 5 1 100 (3/2) (by decide)

/-- C3 (max-green ceiling): along any run whose initial timer is at most 89
the timer stays at most 89, so no phase is ever held longer than
max_green_time consecutive ticks; and from any reached state whose timer
stands at 89 the next tick forcibly switches to the opposite green phase and
resets the timer, whatever the urgency scores are. -/
theorem max_green_ceiling (r : ℚ) (init : PhaseState) (inputs : List (ℚ × ℚ))
    (u v : ℚ) (h : init.timer ≤ 89) :
    (runPhase r init inputs).timer ≤ 89 ∧
    ((runPhase r init inputs).timer = 89 →
      stepPhase r (runPhase r init inputs) u v =
        ⟨(runPhase r init inputs).phase.opposite, 0⟩) :=
  ⟨runPhase_timer_le r init inputs h,
   fun h89 => stepPhase_forced r _ u v h89⟩

/-- Witness for C3 at a concrete state: after an empty run from timer 89 the
bound holds and the next tick forces the switch away from east-west green. -/
theorem max_green_ceiling_witness :
    (runPhase (3/2) ⟨Phase.EWGreen, 89⟩ []).timer ≤ 89 ∧
    stepPhase (3/2) (runPhase (3/2) ⟨Phase.EWGreen, 89⟩ []) 0 0 =
      ⟨(runPhase (3/2) ⟨Phase.EWGreen, 89⟩ []).phase.opposite, 0⟩ :=
  ⟨(max_green_ceiling (3/2) ⟨Phase.EWGreen, 89⟩ [] 0 0 (by decide)).1,
   (max_green_ceiling (3/2) ⟨Phase.EWGreen, 89⟩ [] 0 0 (by decide)).2 (by decide)⟩

/-- C4 (coordination boost): when the decided J1 target phase is east-west
green the J2 east-west urgency is scaled by coordination_weight, and
additionally by 1.3 exactly when the last J1 change lies fewer than 40 steps
in the past; the J2 north-south urgency is never adjusted, and with any
other J1 target phase the J2 east-west urgency is returned unchanged.  The
J1 scores are not inputs of the adjustment at all. -/
theorem coordination_boost_spec (step lastChange : ℕ) (ewU nsU : ℚ) :
    coordAdjust Phase.EWGreen step lastChange ewU nsU =
      ((if (step : ℤ) - (lastChange : ℤ) < 40
          then ewU * coordination_weight * (13/10)
          else ewU * coordination_weight), nsU) ∧
    coordAdjust Phase.NSGreen step lastChange ewU nsU = (ewU, nsU) := by
  constructor <;>
    · simp only [coordAdjust]
      split_ifs <;> simp_all

/-! Helper lemmas for the urgency formula. -/

theorem urgency_bonus_eq (H : ℤ) (s : ℚ) (hH : 0 ≤ H) :
    (if 0 < H then s + queue_clearing_bonus * (H : ℚ) else s) = s + 3 * (H : ℚ) := by
  rcases lt_or_eq_of_le hH with h | h
  · rw [if_pos h]
    unfold queue_clearing_bonus
    ring
  · rw [if_neg (by omega)]
    have hq : (H : ℚ) = 0 := by
      rw [← h]
      norm_num
    rw [hq]
    ring

theorem urgency_bonus_nonneg (H : ℤ) (s : ℚ) (hH : 0 ≤ H) (hs : 0 ≤ s) :
    0 ≤ (if 0 < H then s + queue_clearing_bonus * (H : ℚ) else s) := by
  have hq : (0 : ℚ) ≤ (H : ℚ) := by exact_mod_cast hH
  unfold queue_clearing_bonus
  split_ifs <;> linarith

theorem urgency_scaled_nonneg (H : ℤ) (base : ℚ) (hb : 0 ≤ base) :
    0 ≤ (if emergency_threshold ≤ H then base * 2
         else if congestion_threshold ≤ H then base * (3/2)
         else base) := by
  split_ifs <;> linarith

/-- C2 (urgency score definition): the score computed by
calculate_urgency_score equals the specification formula, in which the
queue-clearing bonus 3.0 * halting is added unconditionally, for all
non-negative readings; and the result is a non-negative rational. -/
theorem urgency_score_spec (td : TrafficData) (hist : Direction → List ℤ)
    (pair : AxisP)
    (h : ∀ d, 0 ≤ td.halting d ∧ 0 ≤ td.total d ∧ 0 ≤ td.waiting d) :
    calculate_urgency_score td hist pair = urgency_spec_formula td hist pair ∧
    0 ≤ calculate_urgency_score td hist pair := by
  obtain ⟨hh1, ht1, hw1⟩ := h (axis_dirs pair).1
  obtain ⟨hh2, ht2, hw2⟩ := h (axis_dirs pair).2
  have hH : 0 ≤ td.halting (axis_dirs pair).1 + td.halting (axis_dirs pair).2 := by
    linarith
  have hbase : 0 ≤
      ((td.halting (axis_dirs pair).1 + td.halting (axis_dirs pair).2 : ℤ) : ℚ) * 4 +
      ((td.total (axis_dirs pair).1 + td.total (axis_dirs pair).2 : ℤ) : ℚ) * (3/2) +
      (td.waiting (axis_dirs pair).1 + td.waiting (axis_dirs pair).2) / 2 * (4/5) +
      max 0 (max (predict_traffic_trend (hist (axis_dirs pair).1))
        (predict_traffic_trend (hist (axis_dirs pair).2))) * (5/2) := by
    have hcH : (0 : ℚ) ≤ ((td.halting (axis_dirs pair).1 + td.halting (axis_dirs pair).2 : ℤ) : ℚ) := by
      exact_mod_cast hH
    have hcT : (0 : ℚ) ≤ ((td.total (axis_dirs pair).1 + td.total (axis_dirs pair).2 : ℤ) : ℚ) := by
      have : 0 ≤ td.total (axis_dirs pair).1 + td.total (axis_dirs pair).2 := by linarith
      exact_mod_cast this
    have hmx : (0 : ℚ) ≤ max 0 (max (predict_traffic_trend (hist (axis_dirs pair).1))
        (predict_traffic_trend (hist (axis_dirs pair).2))) := le_max_left _ _
    have hwp : (0 : ℚ) ≤ (td.waiting (axis_dirs pair).1 + td.waiting (axis_dirs pair).2) / 2 := by
      linarith
    nlinarith
  constructor
  · simp only [calculate_urgency_score, urgency_spec_formula]
    exact urgency_bonus_eq _ _ hH
  · simp only [calculate_urgency_score]
    exact urgency_bonus_nonneg _ _ hH (urgency_scaled_nonneg _ _ hbase)

/-- Witness for C2 at a concrete reading with five halting and six total
vehicles per direction and a two-second wait. -/
theorem urgency_score_spec_witness :
    calculate_urgency_score ⟨fun _ => 5, fun _ => 6, fun _ => 2⟩ (fun _ => []) AxisP.EW =
      urgency_spec_formula ⟨fun _ => 5, fun _ => 6, fun _ => 2⟩ (fun _ => []) AxisP.EW ∧
    0 ≤ calculate_urgency_score ⟨fun _ => 5, fun _ => 6, fun _ => 2⟩ (fun _ => []) AxisP.EW :=
  urgency_score_spec ⟨fun _ => 5, fun _ => 6, fun _ => 2⟩ (fun _ => []) AxisP.EW (by decide)

/-- Counterexample for C5: the source appends the new halting count only to
the primary focus directions buffer.  With all buffers empty, primary
direction East and value 7, the North buffer stays empty instead of
receiving the claimed append. -/
theorem history_append_counterexample :
    updateHistory (fun _ => ([] : List ℤ)) Direction.E 7 Direction.N = [] ∧
    updateHistory (fun _ => ([] : List ℤ)) Direction.E 7 Direction.E = [7] := by
  constructor <;> rfl

/-- C5 amended: on each tick exactly the primary focus directions buffer
receives the new value at its end, every buffer keeps length at most 10
afterwards, and a non-primary buffer is returned completely unchanged. -/
theorem history_primary_only (hist : Direction → List ℤ) (primary d : Direction)
    (value : ℤ) (h : ∀ x, (hist x).length ≤ 10) :
    (updateHistory hist primary value primary).getLast? = some value ∧
    (updateHistory hist primary value d).length ≤ 10 ∧
    (d ≠ primary → updateHistory hist primary value d = hist d) := by
  refine ⟨?_, ?_, ?_⟩
  · show ((let l := if primary = primary then hist primary ++ [value] else hist primary;
      if 10 < l.length then l.tail else l)).getLast? = some value
    rw [if_pos rfl]
    cases hp : hist primary with
    | nil => simp
    | cons x xs =>
      by_cases hl : 10 < ((x :: xs) ++ [value]).length
      · rw [if_pos hl]
        simp
      · rw [if_neg hl]
        exact List.getLast?_concat _
  · have hb : (if d = primary then hist d ++ [value] else hist d).length ≤ 11 := by
      have := h d
      split_ifs with hx
      · rw [List.length_append]
        simp only [List.length_singleton]
        omega
      · omega
    simp only [updateHistory]
    by_cases htrim : 10 < (if d = primary then hist d ++ [value] else hist d).length
    · rw [if_pos htrim, List.length_tail]
      omega
    · rw [if_neg htrim]
      omega
  · intro hdp
    show (let l := if d = primary then hist d ++ [value] else hist d;
      if 10 < l.length then l.tail else l) = hist d
    rw [if_neg hdp, if_neg (by have := h d; omega)]

/-- Witness for C5 amended at a concrete full buffer set. -/
theorem history_primary_only_witness :
    (updateHistory (fun _ => [0, 1, 2, 3, 4, 5, 6, 7, 8, 9]) Direction.E 7
      Direction.E).getLast? = some 7 ∧
    (updateHistory (fun _ => [0, 1, 2, 3, 4, 5, 6, 7, 8, 9]) Direction.E 7
      Direction.N).length ≤ 10 ∧
    updateHistory (fun _ => [0, 1, 2, 3, 4, 5, 6, 7, 8, 9]) Direction.E 7
      Direction.N = [0, 1, 2, 3, 4, 5, 6, 7, 8, 9] := by
  obtain ⟨h1, h2, h3⟩ := history_primary_only
    (fun _ => ([0, 1, 2, 3, 4, 5, 6, 7, 8, 9] : List ℤ)) Direction.E Direction.N 7
    (by decide)
  exact ⟨h1, h2, h3 (by decide)⟩

/-- Counterexample for C6: angles 10 and 30 both lie strictly inside the
same half of the East sector (between the sector midpoint 0 and the sector
edge 45), yet the source assigns them different secondary directions, so the
secondary choice in the East sector is not a split at the sector midpoint;
it is a split at 22.5 and 337.5 instead. -/
theorem camera_focus_counterexample :
    get_camera_focus 10 = (Direction.E, Direction.N) ∧
    get_camera_focus 30 = (Direction.E, Direction.S) := by
  constructor
  · have hm : qmod360 (10 : ℚ) = 10 := qmod360_eq_self _ (by norm_num) (by norm_num)
    simp only [get_camera_focus, hm]
    rw [if_pos (Or.inr (by norm_num : (10 : ℚ) < 45)),
      if_pos (Or.inl (by norm_num : (10 : ℚ) < 22.5))]
  · have hm : qmod360 (30 : ℚ) = 30 := qmod360_eq_self _ (by norm_num) (by norm_num)
    simp only [get_camera_focus, hm]
    rw [if_pos (Or.inr (by norm_num : (30 : ℚ) < 45)),
      if_neg (show ¬((30 : ℚ) < 22.5 ∨ 337.5 < (30 : ℚ)) by norm_num)]

/-- C6 amended: on the reduced range the primary direction follows the four
90-degree sectors centered at 0, 90, 180 and 270 exactly as claimed, and
the secondary direction is a neighboring direction chosen by a midpoint
split in the North, West and South sectors, but in the East sector by a
split at 22.5 and 337.5: North on the central 45-degree band around 0 and
South on the outer sub-bands. -/
theorem camera_focus_amended_spec (a : ℚ) (h0 : 0 ≤ a) (h1 : a < 360) :
    get_camera_focus a = spec_focus_amended a := by
  have hm : qmod360 a = a := qmod360_eq_self a h0 h1
  simp only [get_camera_focus, spec_focus_amended, hm]
  rcases lt_or_le a 22.5 with hA | hA
  · rw [if_pos (Or.inr (show a < 45 by linarith)), if_pos (Or.inl hA), if_pos hA]
  · rcases lt_or_le a 45 with hB | hB
    · rw [if_pos (Or.inr hB),
        if_neg (show ¬(a < 22.5 ∨ 337.5 < a) by rintro (hx | hx) <;> linarith),
        if_neg (not_lt.mpr hA), if_pos hB]
    · rcases lt_or_le a 90 with hC | hC
      · rw [if_neg (show ¬(315 ≤ a ∨ a < 45) by rintro (hx | hx) <;> linarith),
          if_pos (show 45 ≤ a ∧ a < 135 from ⟨hB, by linarith⟩), if_pos hC,
          if_neg (not_lt.mpr hA), if_neg (not_lt.mpr hB), if_pos hC]
      · rcases lt_or_le a 135 with hD | hD
        · rw [if_neg (show ¬(315 ≤ a ∨ a < 45) by rintro (hx | hx) <;> linarith),
            if_pos (show 45 ≤ a ∧ a < 135 from ⟨hB, hD⟩),
            if_neg (not_lt.mpr hC),
            if_neg (not_lt.mpr hA), if_neg (not_lt.mpr hB),
            if_neg (not_lt.mpr hC), if_pos hD]
        · rcases lt_or_le a 180 with hE | hE
          · rw [if_neg (show ¬(315 ≤ a ∨ a < 45) by rintro (hx | hx) <;> linarith),
              if_neg (show ¬(45 ≤ a ∧ a < 135) by rintro ⟨hx, hy⟩; linarith),
              if_pos (show 135 ≤ a ∧ a < 225 from ⟨hD, by linarith⟩), if_pos hE,
              if_neg (not_lt.mpr hA), if_neg (not_lt.mpr hB),
              if_neg (not_lt.mpr hC), if_neg (not_lt.mpr hD), if_pos hE]
          · rcases lt_or_le a 225 with hF | hF
            · rw [if_neg (show ¬(315 ≤ a ∨ a < 45) by rintro (hx | hx) <;> linarith),
                if_neg (show ¬(45 ≤ a ∧ a < 135) by rintro ⟨hx, hy⟩; linarith),
                if_pos (show 135 ≤ a ∧ a < 225 from ⟨hD, hF⟩),
                if_neg (not_lt.mpr hE),
                if_neg (not_lt.mpr hA), if_neg (not_lt.mpr hB),
                if_neg (not_lt.mpr hC), if_neg (not_lt.mpr hD),
                if_neg (not_lt.mpr hE), if_pos hF]
            · rcases lt_or_le a 270 with hG | hG
              · rw [if_neg (show ¬(315 ≤ a ∨ a < 45) by rintro (hx | hx) <;> linarith),
                  if_neg (show ¬(45 ≤ a ∧ a < 135) by rintro ⟨hx, hy⟩; linarith),
                  if_neg (show ¬(135 ≤ a ∧ a < 225) by rintro ⟨hx, hy⟩; linarith),
                  if_pos (show 225 ≤ a ∧ a < 315 from ⟨hF, by linarith⟩), if_pos hG,
                  if_neg (not_lt.mpr hA), if_neg (not_lt.mpr hB),
                  if_neg (not_lt.mpr hC), if_neg (not_lt.mpr hD),
                  if_neg (not_lt.mpr hE), if_neg (not_lt.mpr hF), if_pos hG]
              · rcases lt_or_le a 315 with hH | hH
                · rw [if_neg (show ¬(315 ≤ a ∨ a < 45) by rintro (hx | hx) <;> linarith),
                    if_neg (show ¬(45 ≤ a ∧ a < 135) by rintro ⟨hx, hy⟩; linarith),
                    if_neg (show ¬(135 ≤ a ∧ a < 225) by rintro ⟨hx, hy⟩; linarith),
                    if_pos (show 225 ≤ a ∧ a < 315 from ⟨hF, hH⟩),
                    if_neg (not_lt.mpr hG),
                    if_neg (not_lt.mpr hA), if_neg (not_lt.mpr hB),
                    if_neg (not_lt.mpr hC), if_neg (not_lt.mpr hD),
                    if_neg (not_lt.mpr hE), if_neg (not_lt.mpr hF),
                    if_neg (not_lt.mpr hG), if_pos hH]
                · rcases le_or_lt a 337.5 with hI | hI
                  · rw [if_pos (Or.inl hH),
                      if_neg (show ¬(a < 22.5 ∨ 337.5 < a) by
                        rintro (hx | hx) <;> linarith),
                      if_neg (not_lt.mpr hA), if_neg (not_lt.mpr hB),
                      if_neg (not_lt.mpr hC), if_neg (not_lt.mpr hD),
                      if_neg (not_lt.mpr hE), if_neg (not_lt.mpr hF),
                      if_neg (not_lt.mpr hG), if_neg (not_lt.mpr hH), if_pos hI]
                  · rw [if_pos (Or.inl hH), if_pos (Or.inr hI),
                      if_neg (not_lt.mpr hA), if_neg (not_lt.mpr hB),
                      if_neg (not_lt.mpr hC), if_neg (not_lt.mpr hD),
                      if_neg (not_lt.mpr hE), if_neg (not_lt.mpr hF),
                      if_neg (not_lt.mpr hG), if_neg (not_lt.mpr hH),
                      if_neg (not_le.mpr hI)]

/-- Witness for C6 amended at the concrete angle 100. -/
theorem camera_focus_amended_spec_witness :
    get_camera_focus 100 = spec_focus_amended 100 :=
  camera_focus_amended_spec 100 (by norm_num) (by norm_num)

/-- C7 (trend prediction): predict_traffic_trend returns 0 on a history of
fewer than 5 samples, and otherwise the difference between the most recent
sample and the fifth most recent one divided by 5.  The function is total
over all histories and, being a pure function of the list, leaves the
buffer untouched. -/
theorem trend_formula (history : List ℤ) :
    (history.length < 5 → predict_traffic_trend history = 0) ∧
    (5 ≤ history.length →
      predict_traffic_trend history =
        (((history.getLast?.getD 0 : ℤ) : ℚ) -
          ((history.getD (history.length - 5) 0 : ℤ) : ℚ)) / 5) := by
  constructor
  · intro h
    simp [predict_traffic_trend, h]
  · intro h5
    have hlt : ¬ history.length < 5 := by omega
    have hn : history.length - 5 < history.length := by omega
    have hlen : (history.drop (history.length - 5)).length = 5 := by
      rw [List.length_drop]
      omega
    have hne : history.drop (history.length - 5) ≠ [] := by
      intro hc
      rw [hc] at hlen
      simp at hlen
    have hlast : (history.drop (history.length - 5)).getLast? = history.getLast? := by
      conv_rhs => rw [← List.take_append_drop (history.length - 5) history]
      rw [List.getLast?_append_of_ne_nil _ hne]
    have hhead : (history.drop (history.length - 5)).head?.getD 0 =
        history.getD (history.length - 5) 0 := by
      rw [List.drop_eq_getElem_cons hn, List.head?_cons, Option.getD_some,
        List.getD_eq_getElem?_getD, List.getElem?_eq_getElem hn, Option.getD_some]
    simp only [predict_traffic_trend, hlt, if_false]
    rw [if_pos (by rw [hlen]; omega), hlast, hhead, hlen]
    norm_num

/-- Witness for C7: a short history yields 0 and a six-entry history yields
the slope over its last five samples. -/
theorem trend_formula_witness :
    predict_traffic_trend [1, 2] = 0 ∧
    predict_traffic_trend [3, 1, 4, 1, 5, 9] = ((9 : ℚ) - 1) / 5 := by
  refine ⟨(trend_formula [1, 2]).1 (by norm_num), ?_⟩
  have h := (trend_formula [3, 1, 4, 1, 5, 9]).2 (by norm_num)
  simpa using h

/-- C8 (camera wrap and periodicity): from any start angle in the reduced
range every advance of camera_rotation_speed degrees keeps the angle in the
range, after 36 advances the angle is back exactly at the start, and the
focus pair recurs with period 36 ticks at every point in the run. -/
theorem camera_wrap_period (a : ℚ) (n : ℕ) (h0 : 0 ≤ a) (h1 : a < 360) :
    (0 ≤ advance_angle^[n] a ∧ advance_angle^[n] a < 360) ∧
    advance_angle^[36] a = a ∧
    get_camera_focus (advance_angle^[n + 36] a) =
      get_camera_focus (advance_angle^[n] a) := by
  have hm : qmod360 a = a := qmod360_eq_self a h0 h1
  have hiter : ∀ m : ℕ, advance_angle^[m] a = qmod360 (a + camera_rotation_speed * m) := by
    intro m
    conv_lhs => rw [← hm]
    exact advance_angle_iter a m
  refine ⟨?_, ?_, ?_⟩
  · rw [hiter n]
    exact qmod360_bounds _
  · rw [hiter 36]
    have he : a + camera_rotation_speed * ((36 : ℕ) : ℚ) = a + 360 * ((1 : ℤ) : ℚ) := by
      unfold camera_rotation_speed
      push_cast
      ring
    rw [he, qmod360_add_int, hm]
  · rw [hiter (n + 36), hiter n]
    have he : a + camera_rotation_speed * (((n + 36 : ℕ)) : ℚ) =
        (a + camera_rotation_speed * (n : ℚ)) + 360 * ((1 : ℤ) : ℚ) := by
      unfold camera_rotation_speed
      push_cast
      ring
    rw [he, qmod360_add_int]

/-- Witness for C8 starting at angle 0 after two ticks. -/
theorem camera_wrap_period_witness :
    (0 ≤ advance_angle^[2] (0 : ℚ) ∧ advance_angle^[2] (0 : ℚ) < 360) ∧
    advance_angle^[36] (0 : ℚ) = 0 ∧
    get_camera_focus (advance_angle^[2 + 36] (0 : ℚ)) =
      get_camera_focus (advance_angle^[2] (0 : ℚ)) :=
  camera_wrap_period 0 2 (by norm_num) (by norm_num)

/-- C9 (sensor-unavailable recovery): when the reading of a direction is
absent, the collected traffic data carries zero halting count, zero total
count and zero waiting time for that direction; the collection function is
total, so the absence never aborts the tick and never surfaces to the
caller. -/
theorem sensor_none_zeroed (angle : ℚ) (readings : Direction → Option RawReading)
    (d : Direction) (h : readings d = none) :
    (get_360_camera_data angle readings).halting d = 0 ∧
    (get_360_camera_data angle readings).total d = 0 ∧
    (get_360_camera_data angle readings).waiting d = 0 := by
  simp [get_360_camera_data, h]

/-- Witness for C9 with every reading absent. -/
theorem sensor_none_zeroed_witness :
    (get_360_camera_data 0 (fun _ => none)).halting Direction.E = 0 ∧
    (get_360_camera_data 0 (fun _ => none)).total Direction.E = 0 ∧
    (get_360_camera_data 0 (fun _ => none)).waiting Direction.E = 0 :=
  sensor_none_zeroed 0 (fun _ => none) Direction.E rfl

/-! Helper lemmas for Python truncation. -/

theorem intTrunc_eq_floor (q : ℚ) (h : 0 ≤ q) : intTrunc q = ⌊q⌋ := if_pos h

theorem intTrunc_nonneg (q : ℚ) (h : 0 ≤ q) : 0 ≤ intTrunc q := by
  rw [intTrunc_eq_floor q h]
  exact Int.floor_nonneg.mpr h

/-- C10 (visibility weighting truncates counts): for an available reading
the weighted halting and total counts of a direction equal the raw counts
multiplied by the visibility factor of the current focus and truncated
toward zero; each weighted count is a non-negative integer at most the raw
count, and whenever raw times factor is below 1 the weighted count is 0. -/
theorem visibility_trunc (angle : ℚ) (readings : Direction → Option RawReading)
    (d : Direction) (r : RawReading) (vis : ℚ) (h : readings d = some r)
    (hv : vis = calculate_camera_visibility d (get_camera_focus angle).1
      (get_camera_focus angle).2) :
    (get_360_camera_data angle readings).halting d = intTrunc ((r.halting : ℚ) * vis) ∧
    (get_360_camera_data angle readings).total d = intTrunc ((r.total : ℚ) * vis) ∧
    0 ≤ (get_360_camera_data angle readings).halting d ∧
    (get_360_camera_data angle readings).halting d ≤ (r.halting : ℤ) ∧
    0 ≤ (get_360_camera_data angle readings).total d ∧
    (get_360_camera_data angle readings).total d ≤ (r.total : ℤ) ∧
    ((r.halting : ℚ) * vis < 1 → (get_360_camera_data angle readings).halting d = 0) := by
  have hvis : vis = 1 ∨ vis = 3/4 ∨ vis = 1/4 := by
    rw [hv]
    unfold calculate_camera_visibility
    split_ifs <;> simp
  have hv0 : 0 ≤ vis := by rcases hvis with hx | hx | hx <;> rw [hx] <;> norm_num
  have hv1 : vis ≤ 1 := by rcases hvis with hx | hx | hx <;> rw [hx] <;> norm_num
  have key : ∀ raw : ℕ,
      0 ≤ weight_count raw vis ∧ weight_count raw vis ≤ (raw : ℤ) ∧
      ((raw : ℚ) * vis < 1 → weight_count raw vis = 0) := by
    intro raw
    have hr0 : (0 : ℚ) ≤ (raw : ℚ) := by positivity
    have hq0 : 0 ≤ (raw : ℚ) * vis := mul_nonneg hr0 hv0
    refine ⟨intTrunc_nonneg _ hq0, ?_, ?_⟩
    · unfold weight_count
      rw [intTrunc_eq_floor _ hq0]
      have hle : (raw : ℚ) * vis ≤ (raw : ℚ) := by nlinarith
      calc ⌊(raw : ℚ) * vis⌋ ≤ ⌊(raw : ℚ)⌋ := Int.floor_le_floor hle
        _ = (raw : ℤ) := Int.floor_natCast raw
    · intro hlt
      unfold weight_count
      rw [intTrunc_eq_floor _ hq0, Int.floor_eq_zero_iff]
      exact Set.mem_Ico.mpr ⟨hq0, hlt⟩
  simp only [get_360_camera_data, h]
  rw [← hv]
  exact ⟨rfl, rfl, (key r.halting).1, (key r.halting).2.1, (key r.total).1,
    (key r.total).2.1, (key r.halting).2.2⟩

/-- Witness for C10: one vehicle seen at the peripheral factor contributes
a weighted count of exactly 0.  At angle 90 the focus pair is North primary
and West secondary, so East is peripheral with factor one quarter. -/
theorem visibility_trunc_witness :
    (get_360_camera_data 90 (fun _ => some ⟨1, 1, 0⟩)).halting Direction.E =
      intTrunc ((1 : ℚ) * (1/4)) ∧
    0 ≤ (get_360_camera_data 90 (fun _ => some ⟨1, 1, 0⟩)).halting Direction.E ∧
    (get_360_camera_data 90 (fun _ => some ⟨1, 1, 0⟩)).halting Direction.E = 0 := by
  have hfocus : get_camera_focus 90 = (Direction.N, Direction.W) := by
    have hm : qmod360 (90 : ℚ) = 90 := qmod360_eq_self _ (by norm_num) (by norm_num)
    simp only [get_camera_focus, hm]
    rw [if_neg (show ¬((315 : ℚ) ≤ 90 ∨ (90 : ℚ) < 45) by norm_num),
      if_pos (show (45 : ℚ) ≤ 90 ∧ (90 : ℚ) < 135 by norm_num),
      if_neg (show ¬((90 : ℚ) < 90) by norm_num)]
  have hvv : (1/4 : ℚ) = calculate_camera_visibility Direction.E
      (get_camera_focus 90).1 (get_camera_focus 90).2 := by
    rw [hfocus]
    unfold calculate_camera_visibility
    rw [if_neg (by decide), if_neg (by decide)]
  have h := visibility_trunc 90 (fun _ => some ⟨1, 1, 0⟩) Direction.E ⟨1, 1, 0⟩
    (1/4) rfl hvv
  exact ⟨h.1, h.2.2.1, h.2.2.2.2.2.2 (by norm_num)⟩

end Daloy
